import Mathlib

/-!
Verification of the core utilities of `@apify/utilities`
(`src/packages/utilities/src/utilities.ts`), shallowly embedded in Lean 4.

The asynchronous primitives (`timeoutPromise`, `betterSetInterval` /
`betterClearInterval`, `sequentializePromises`, `promisifyServerListen`)
are modelled as explicit state machines: the mutable variables captured by
the JavaScript closures become fields of a state structure, and every
event-loop callback becomes a step function on that state.  Runs are folds
of a step function over a list of events, which lets us quantify over all
interleavings of the competing completion sources.

The identity generators (`cryptoRandomObjectId`, `deterministicUniqueId`)
are embedded together with full executable implementations of SHA-256,
base64 and UTF-8 encoding, and the username policy (`isForbiddenUsername`)
is embedded with a small regular-expression engine based on Brzozowski
derivatives, over the exact pattern list of the source.
-/

/-- JavaScript runtime values, as far as the utilities observe them:
the utilities only branch on truthiness and pass values through. -/

inductive JSVal : Type where
  | vUndefined : JSVal
  | vNull : JSVal
  | vBool : Bool → JSVal
  | vNum : Int → JSVal
  | vStr : String → JSVal
  | vError : String → JSVal
deriving DecidableEq, Repr

/-- JavaScript truthiness: `undefined`, `null`, `false`, `0` and `""` are
falsy, everything else (including any `Error` object) is truthy. -/

def JSVal.truthy : JSVal → Bool
  | .vUndefined => false
  | .vNull => false
  | .vBool b => b
  | .vNum n => n != 0
  | .vStr s => s ≠ ""
  | .vError _ => true

/-- Settling an ES promise: `resolve`/`reject` on an already settled
promise is silently ignored, so only the first settlement sticks. -/

def promSettle (cur : Option (Except JSVal JSVal)) (o : Except JSVal JSVal) :
    Option (Except JSVal JSVal) :=
  match cur with
  | some x => some x
  | none => some o

/-! ## `timeoutPromise` (utilities.ts lines 396-412)

The executor closes over `timeout` (the timer handle), `hasFulfilled`, and
the outer promise's settlement.  `callback(err, result)` is invoked by
three sources: the wrapped promise resolving (`callback(null, result)`),
the wrapped promise rejecting (`callback(reason)`, result `undefined`),
and the timer firing (`callback(new Error(errorMessage))`). -/

/-- State of one `timeoutPromise` invocation: the closure variables
`hasFulfilled` and the timer (represented by whether `clearTimeout` has
run), plus the settlement of the promise returned to the caller. -/

structure TPState : Type where
  hasFulfilled : Bool
  timerCleared : Bool
  settled : Option (Except JSVal JSVal)
deriving Repr

/-- Initial state: executor has run, timer armed, nothing settled. -/

def TPState.init : TPState := ⟨false, false, none⟩

/-- The internal `callback` of `timeoutPromise`:
`if (hasFulfilled) return; clearTimeout(timeout); hasFulfilled = true;
if (err) return reject(err); resolve(result);`. -/

def tpCallback (st : TPState) (err : JSVal) (result : JSVal) : TPState :=
  if st.hasFulfilled then st
  else
    let st1 : TPState := { st with timerCleared := true, hasFulfilled := true }
    if err.truthy then { st1 with settled := promSettle st1.settled (.error err) }
    else { st1 with settled := promSettle st1.settled (.ok result) }

/-- Event-loop events that can reach the callback: the wrapped promise
settling (at most once, enforced by the promise runtime) or the timer
firing (only when not yet cleared). -/

inductive TPEvent : Type where
  | innerResolved : JSVal → TPEvent
  | innerRejected : JSVal → TPEvent
  | timerFired : TPEvent
deriving DecidableEq, Repr

/-- The default `errorMessage` argument of `timeoutPromise`. -/

def timeoutDefaultMessage : String := "Promise has timed-out"

/-- One event-loop step of `timeoutPromise` with message `msg`.
A cleared timer can never fire, mirroring `clearTimeout`. -/

def tpStep (msg : String) (st : TPState) : TPEvent → TPState
  | .innerResolved v => tpCallback st JSVal.vNull v
  | .innerRejected e => tpCallback st e JSVal.vUndefined
  | .timerFired =>
      if st.timerCleared then st
      else tpCallback st (JSVal.vError msg) JSVal.vUndefined

/-- Run `timeoutPromise` over a sequence of event-loop events. -/

def runTP (msg : String) (evs : List TPEvent) : TPState :=
  evs.foldl (tpStep msg) TPState.init

/-! ## `betterSetInterval` / `betterClearInterval` (lines 122-152) -/

/-- The closure state of one `betterSetInterval` handle: the `isRunning`
liveness flag and whether a `setTimeout` is currently pending. -/

structure IntervalState : Type where
  isRunning : Bool
  timerPending : Bool
deriving DecidableEq, Repr

/-- Initial state: `funcWrapper()` has been invoked synchronously, so the
work function is running and no timer is pending yet. -/

def IntervalState.start : IntervalState := ⟨true, false⟩

/-- The continuation `callback` handed to the work function:
`if (isRunning) timeoutId = setTimeout(funcWrapper, delay)`. -/

def intervalCallback (st : IntervalState) : IntervalState :=
  if st.isRunning then { st with timerPending := true } else st

/-- The handle method `_betterClearInterval`: `isRunning = false; clearTimeout(timeoutId)`.
`clearTimeout` on an absent or stale handle is a no-op, so this is total. -/

def clearIntervalStep (_st : IntervalState) : IntervalState :=
  ⟨false, false⟩

/-- Events that can happen to a handle after creation: the work function
invoking its continuation, the pending timer firing (starting the next
run), or `betterClearInterval` being applied (possibly repeatedly). -/

inductive IntervalEvent : Type where
  | contCalled : IntervalEvent
  | timerFired : IntervalEvent
  | cleared : IntervalEvent
deriving DecidableEq, Repr

def intervalStep (st : IntervalState) : IntervalEvent → IntervalState
  | .contCalled => intervalCallback st
  | .timerFired => if st.timerPending then { st with timerPending := false } else st
  | .cleared => clearIntervalStep st

/-! ## `promisifyServerListen` (lines 359-380)

The returned function builds `onError`, `onListening` and
`removeListeners`, registers the two handlers, then calls
`server.listen(port)`.  Whichever of the two events arrives first runs its
handler, which removes both listeners and settles the promise. -/

/-- The straight-line actions performed by the function returned from
`promisifyServerListen`, in source order. -/

inductive SetupAction : Type where
  | onAction : String → SetupAction
  | listenAction : Nat → SetupAction
deriving DecidableEq, Repr

/-- Setup trace of `server.on('error', onError); server.on('listening', onListening);
server.listen(port);` in source order. -/

def promisifyServerListenSetup (port : Nat) : List SetupAction :=
  [.onAction "error", .onAction "listening", .listenAction port]

/-- State after setup: which of the two handlers are still registered on
the server, and the settlement of the promise handed to the caller.
`Except.ok ()` models `resolve()`, `Except.error e` models `reject(e)`
(the unit resolution is stored as `vUndefined`). -/

structure ListenState : Type where
  errorHandler : Bool
  listeningHandler : Bool
  settled : Option (Except JSVal JSVal)
deriving Repr

/-- State at the moment `server.listen(port)` is invoked: both handlers
registered, promise pending. -/

def ListenState.start : ListenState := ⟨true, true, none⟩

/-- Cleanup `removeListeners()`: removes both handlers. -/

def removeListenersStep (st : ListenState) : ListenState :=
  { st with errorHandler := false, listeningHandler := false }

/-- Events the server can emit after `listen` was invoked.  `otherEv`
stands for any unrelated event, which has no registered handler here. -/

inductive ServerEvent : Type where
  | errorEv : JSVal → ServerEvent
  | listeningEv : ServerEvent
  | otherEv : ServerEvent
deriving Repr

/-- One emission step: a handler runs only while it is registered;
`onError` = `removeListeners(); reject(err)`, `onListening` =
`removeListeners(); resolve()`. -/

def listenStep (st : ListenState) : ServerEvent → ListenState
  | .errorEv e =>
      if st.errorHandler then
        let st1 := removeListenersStep st
        { st1 with settled := promSettle st1.settled (.error e) }
      else st
  | .listeningEv =>
      if st.listeningHandler then
        let st1 := removeListenersStep st
        { st1 with settled := promSettle st1.settled (.ok JSVal.vUndefined) }
      else st
  | .otherEv => st

/-- Run the emitter from the post-setup state. -/

def runListen (evs : List ServerEvent) : ListenState :=
  evs.foldl listenStep ListenState.start

/-! ## Exception propagation (`betterClearInterval` vs listener cleanup)

Possibly-throwing JavaScript code is embedded in the `Except JSVal`
monad: `Except.error e` is an exception `e` propagating to the caller. -/

/-- Wrapper `betterClearInterval(intervalID)` (lines 142-152): the handle's clear
function may throw; the wrapper guards the call with
`if (intervalID && intervalID._betterClearInterval)` and wraps it in
`try/catch`, logging the exception via `log.exception`.  The result is
the exception that was caught and logged, if any; the `Except` layer of
the result shows whether anything escaped to the caller. -/

def betterClearIntervalRun (handle : Option (Unit → Except JSVal Unit)) :
    Except JSVal (Option JSVal) :=
  match handle with
  | none => .ok none
  | some f =>
      match f () with
      | .ok _ => .ok none
      | .error e => .ok (some e)

/-- Cleanup `removeListeners()` as written in the source: two bare
`server.removeListener` calls with no `try/catch`, so an exception from
either call propagates. -/

def removeListenersRun (rm : String → Except JSVal Unit) : Except JSVal Unit := do
  rm "error"
  rm "listening"

/-- Handler `onListening` as written in the source: `removeListeners(); resolve();`
with no exception handler.  Returns the settlement performed, or
propagates the cleanup exception (in which case `resolve` never runs). -/

def onListeningRun (rm : String → Except JSVal Unit) :
    Except JSVal (Except JSVal JSVal) := do
  removeListenersRun rm
  pure (.ok JSVal.vUndefined)

/-- Handler `onError` as written in the source: `removeListeners(); reject(err);`
with no exception handler. -/

def onErrorRun (rm : String → Except JSVal Unit) (err : JSVal) :
    Except JSVal (Except JSVal JSVal) := do
  removeListenersRun rm
  pure (.error err)

/-! ## `sequentializePromises` (lines 321-331) -/

/-- An element of the input array: either an already-created promise
(whose eventual outcome is recorded) or a factory producing one. -/

inductive PromiseItem (ε α : Type) : Type where
  | prom : Except ε α → PromiseItem ε α
  | fact : (Unit → Except ε α) → PromiseItem ε α

/-- Evaluation of `promiseOrFunc instanceof Function ? promiseOrFunc() : promiseOrFunc`
followed by `await`: the observed outcome of one item. -/

def resolveItem {ε α : Type} : PromiseItem ε α → Except ε α
  | .prom p => p
  | .fact f => f ()

/-- The `for…of` loop body: resolve the current item; a rejection aborts
the whole run (the `await` rethrows), a result is pushed onto `results`. -/

def seqLoop {ε α : Type} (items : List (PromiseItem ε α)) (results : List α) :
    Except ε (List α) :=
  match items with
  | [] => .ok results
  | it :: rest =>
      match resolveItem it with
      | .error e => .error e
      | .ok v => seqLoop rest (results ++ [v])

/-- Function `sequentializePromises`: the early return for an empty input, then the
loop with an empty accumulator. -/

def sequentializePromises {ε α : Type} (items : List (PromiseItem ε α)) :
    Except ε (List α) :=
  if items.length = 0 then .ok [] else seqLoop items []

/-- The same loop, instrumented: each item is tagged with its position,
and the position is logged at the moment the item's operation begins
(factory invoked / promise awaited).  Items never reached leave no trace. -/

def seqLoopTraced {ε α : Type} (items : List (Nat × PromiseItem ε α))
    (results : List α) (trace : List Nat) : Except ε (List α) × List Nat :=
  match items with
  | [] => (.ok results, trace)
  | (i, it) :: rest =>
      match resolveItem it with
      | .error e => (.error e, trace ++ [i])
      | .ok v => seqLoopTraced rest (results ++ [v]) (trace ++ [i])

/-- Tag each item with its position, starting from `n`. -/

def tagFrom {ε α : Type} (n : Nat) : List (PromiseItem ε α) → List (Nat × PromiseItem ε α)
  | [] => []
  | it :: rest => (n, it) :: tagFrom (n + 1) rest

/-- Run the instrumented loop on position-tagged items. -/

def seqRunTraced {ε α : Type} (items : List (PromiseItem ε α)) :
    Except ε (List α) × List Nat :=
  seqLoopTraced (tagFrom 0 items) [] []

/-! ## `cryptoRandomObjectId` (lines 18-25)

`crypto.randomBytes(length)` is modelled by taking the byte sequence as an
input; the function itself is the deterministic mapping from those bytes
to the identifier string. -/

/-- The alphabet literal of the source, verbatim (62 characters; note the
source's transposition `ABCEDF`). -/

def objectIdChars : List Char :=
  "abcdefghijklmnopqrstuvwxyzABCEDFGHIJKLMNOPQRSTUVWXYZ0123456789".data

/-- The loop `str += chars[(bytes[i] | 0) % chars.length]` for `i` from
`bytes.length - 1` down to `0`: the bytes are consumed in reverse order,
each reduced modulo the 62-character alphabet. -/

def cryptoRandomObjectId (bytes : List Nat) : List Char :=
  bytes.reverse.map (fun b => objectIdChars.getD (b % objectIdChars.length) ' ')

/-! ## SHA-256 (executable, for `deterministicUniqueId`) -/

/-- Truncate to a 32-bit word. -/

def w32 (n : Nat) : Nat := n % 4294967296

/-- Right rotation of a 32-bit word. -/

def rotr32 (n x : Nat) : Nat := x / 2 ^ n + x % 2 ^ n * 2 ^ (32 - n)

/-- Logical right shift. -/

def shr32 (n x : Nat) : Nat := x / 2 ^ n

/-- Bitwise complement of a 32-bit word. -/

def compl32 (x : Nat) : Nat := 4294967295 - x

def sigma0 (x : Nat) : Nat := rotr32 7 x ^^^ rotr32 18 x ^^^ shr32 3 x

def sigma1 (x : Nat) : Nat := rotr32 17 x ^^^ rotr32 19 x ^^^ shr32 10 x

def bigSigma0 (x : Nat) : Nat := rotr32 2 x ^^^ rotr32 13 x ^^^ rotr32 22 x

def bigSigma1 (x : Nat) : Nat := rotr32 6 x ^^^ rotr32 11 x ^^^ rotr32 25 x

def chFn (x y z : Nat) : Nat := x &&& y ^^^ compl32 x &&& z

def majFn (x y z : Nat) : Nat := x &&& y ^^^ x &&& z ^^^ y &&& z

/-- The 64 SHA-256 round constants. -/

def shaK : List Nat :=
  [1116352408, 1899447441, 3049323471, 3921009573, 961987163, 1508970993,
   2453635748, 2870763221, 3624381080, 310598401, 607225278, 1426881987,
   1925078388, 2162078206, 2614888103, 3248222580, 3835390401, 4022224774,
   264347078, 604807628, 770255983, 1249150122, 1555081692, 1996064986,
   2554220882, 2821834349, 2952996808, 3210313671, 3336571891, 3584528711,
   113926993, 338241895, 666307205, 773529912, 1294757372, 1396182291,
   1695183700, 1986661051, 2177026350, 2456956037, 2730485921, 2820302411,
   3259730800, 3345764771, 3516065817, 3600352804, 4094571909, 275423344,
   430227734, 506948616, 659060556, 883997877, 958139571, 1322822218,
   1537002063, 1747873779, 1955562222, 2024104815, 2227730452, 2361852424,
   2428436474, 2756734187, 3204031479, 3329325298]

/-- Working state of the compression function (eight 32-bit words). -/

structure Hash8 : Type where
  a : Nat
  b : Nat
  c : Nat
  d : Nat
  e : Nat
  f : Nat
  g : Nat
  h : Nat
deriving Repr

/-- Initial hash value. -/

def shaH0 : Hash8 :=
  ⟨1779033703, 3144134277, 1013904242, 2773480762, 1359893119, 2600822924, 528734635, 1541459225⟩

/-- Big-endian 8-byte encoding of a (64-bit) number. -/

def bytesBE8 (n : Nat) : List Nat :=
  [n / 2 ^ 56 % 256, n / 2 ^ 48 % 256, n / 2 ^ 40 % 256, n / 2 ^ 32 % 256,
   n / 2 ^ 24 % 256, n / 2 ^ 16 % 256, n / 2 ^ 8 % 256, n % 256]

/-- Big-endian 4-byte encoding of a 32-bit word. -/

def bytesBE4 (n : Nat) : List Nat :=
  [n / 2 ^ 24 % 256, n / 2 ^ 16 % 256, n / 2 ^ 8 % 256, n % 256]

/-- SHA-256 padding: `0x80`, zeros to 56 mod 64, then the bit length. -/

def shaPad (msg : List Nat) : List Nat :=
  msg ++ 128 :: List.replicate ((119 - msg.length % 64) % 64) 0 ++ bytesBE8 (8 * msg.length)

/-- Split into 64-byte blocks. -/

def toBlocks (l : List Nat) : List (List Nat) :=
  if l = [] then [] else l.take 64 :: toBlocks (l.drop 64)
termination_by l.length
decreasing_by
  simp only [List.length_drop]
  have : l.length ≠ 0 := fun h => by simp [List.eq_nil_of_length_eq_zero h] at *
  omega

/-- Big-endian 32-bit word `j` of a block. -/

def wordAt (block : List Nat) (j : Nat) : Nat :=
  block.getD (4 * j) 0 * 2 ^ 24 + block.getD (4 * j + 1) 0 * 2 ^ 16 +
    block.getD (4 * j + 2) 0 * 2 ^ 8 + block.getD (4 * j + 3) 0

/-- The message schedule `W[0..63]` of one block. -/

def schedule (block : List Nat) : List Nat :=
  (List.range 48).foldl
    (fun ws _ =>
      ws ++ [w32 (sigma1 (ws.getD (ws.length - 2) 0) + ws.getD (ws.length - 7) 0 +
        sigma0 (ws.getD (ws.length - 15) 0) + ws.getD (ws.length - 16) 0)])
    ((List.range 16).map (wordAt block))

/-- One round of the compression function. -/

def shaRound (ws : List Nat) (t : Hash8) (i : Nat) : Hash8 :=
  let t1 := w32 (t.h + bigSigma1 t.e + chFn t.e t.f t.g + shaK.getD i 0 + ws.getD i 0)
  let t2 := w32 (bigSigma0 t.a + majFn t.a t.b t.c)
  ⟨w32 (t1 + t2), t.a, t.b, t.c, w32 (t.d + t1), t.e, t.f, t.g⟩

/-- Compress one 64-byte block into the running hash. -/

def shaCompress (hs : Hash8) (block : List Nat) : Hash8 :=
  let fin := (List.range 64).foldl (shaRound (schedule block)) hs
  ⟨w32 (hs.a + fin.a), w32 (hs.b + fin.b), w32 (hs.c + fin.c), w32 (hs.d + fin.d),
   w32 (hs.e + fin.e), w32 (hs.f + fin.f), w32 (hs.g + fin.g), w32 (hs.h + fin.h)⟩

/-- The 32-byte big-endian digest of a final hash state. -/

def digestOf (s : Hash8) : List Nat :=
  bytesBE4 s.a ++ bytesBE4 s.b ++ bytesBE4 s.c ++ bytesBE4 s.d ++
    bytesBE4 s.e ++ bytesBE4 s.f ++ bytesBE4 s.g ++ bytesBE4 s.h

/-- SHA-256 of a byte sequence. -/

def sha256 (msg : List Nat) : List Nat :=
  digestOf ((toBlocks (shaPad msg)).foldl shaCompress shaH0)

/-! ## UTF-8 and base64 -/

/-- UTF-8 encoding of one Unicode code point. -/

def utf8Char (c : Char) : List Nat :=
  let n := c.toNat
  if n < 128 then [n]
  else if n < 2048 then [192 + n / 64, 128 + n % 64]
  else if n < 65536 then [224 + n / 4096, 128 + n / 64 % 64, 128 + n % 64]
  else [240 + n / 262144, 128 + n / 4096 % 64, 128 + n / 64 % 64, 128 + n % 64]

/-- UTF-8 encoding of a string (Node's default for `hash.update`). -/

def utf8Encode (s : String) : List Nat :=
  (s.data.map utf8Char).flatten

/-- The base64 alphabet. -/

def b64Alphabet : List Char :=
  "ABCDEFGHIJKLMNOPQRSTUVWXYZabcdefghijklmnopqrstuvwxyz0123456789+/".data

def b64Char (n : Nat) : Char := b64Alphabet.getD n 'A'

/-- Standard base64 with `=` padding, as produced by `digest('base64')`. -/

def base64Encode : List Nat → List Char
  | a :: b :: c :: rest =>
      b64Char (a / 4) :: b64Char (a % 4 * 16 + b / 16) ::
        b64Char (b % 16 * 4 + c / 64) :: b64Char (c % 64) :: base64Encode rest
  | [a, b] => [b64Char (a / 4), b64Char (a % 4 * 16 + b / 16), b64Char (b % 16 * 4), '=']
  | [a] => [b64Char (a / 4), b64Char (a % 4 * 16), '=', '=']
  | [] => []

/-! ## `deterministicUniqueId` (lines 30-37) -/

/-- The call `.replace(/(\+|\/|=)/g, 'x')`: the global regex replaces every match
(each match is a single `+`, `/` or `=` character) by `'x'`, scanning left
to right. -/

def replacePlusSlashEq : List Char → List Char
  | [] => []
  | c :: cs => (if c = '+' ∨ c = '/' ∨ c = '=' then 'x' else c) :: replacePlusSlashEq cs

/-- The pipeline `crypto.createHash('sha256').update(key).digest('base64')
.replace(/(\+|\/|=)/g, 'x').substr(0, length)`. -/

def deterministicUniqueId (key : String) (len : Nat) : List Char :=
  (replacePlusSlashEq (base64Encode (sha256 (utf8Encode key)))).take len

/-- The pipeline as the specification words it: hash the UTF-8 encoding of
the key, base64-encode the digest, replace each of `+`, `/`, `=` by the
filler character `x`, truncate to the requested length. -/

def deterministicIdentifierSpec (key : String) (len : Nat) : List Char :=
  ((base64Encode (sha256 (utf8Encode key))).map
    (fun c => if c ∈ ['+', '/', '='] then 'x' else c)).take len

/-! ## `isForbiddenUsername` (lines 192-316)

`FORBIDDEN_REGEXP` is `^(${ANONYMOUS_USERNAME}|${patterns.join('|')})$`
with the `i` flag: a full-string, case-insensitive match against the
alternation.  A full match of the alternation is exactly a full match of
one of its branches, so the matcher is embedded as a list of regular
expressions, one per branch, in source order.  The engine is a standard
Brzozowski-derivative matcher. -/

/-- Regular expressions over characters, with character classes given by
decidable predicates. -/

inductive Rx : Type where
  | emp : Rx
  | eps : Rx
  | anyc : Rx
  | cls : (Char → Bool) → Rx
  | cat : Rx → Rx → Rx
  | alt : Rx → Rx → Rx
  | star : Rx → Rx

/-- Does the regex accept the empty string? -/

def Rx.nullable : Rx → Bool
  | .emp => false
  | .eps => true
  | .anyc => false
  | .cls _ => false
  | .cat a b => a.nullable && b.nullable
  | .alt a b => a.nullable || b.nullable
  | .star _ => true

/-- Brzozowski derivative with respect to one character. -/

def Rx.deriv : Rx → Char → Rx
  | .emp, _ => .emp
  | .eps, _ => .emp
  | .anyc, _ => .eps
  | .cls p, c => if p c then .eps else .emp
  | .cat a b, c =>
      if a.nullable then .alt (.cat (a.deriv c) b) (b.deriv c)
      else .cat (a.deriv c) b
  | .alt a b, c => .alt (a.deriv c) (b.deriv c)
  | .star a, c => .cat (a.deriv c) (.star a)

/-- Full (anchored) match of a regex against a character list. -/

def rxMatch (r : Rx) (cs : List Char) : Bool :=
  (cs.foldl Rx.deriv r).nullable

/-- A single character matched case-insensitively (the `i` flag). -/

def ciChar (c : Char) : Rx := .cls (fun x => x.toLower == c.toLower)

/-- One character of a pattern literal: an unescaped `.` in a JavaScript
regex matches any character, every other character occurring in the
pattern list is literal (case-insensitive). -/

def litChar (c : Char) : Rx := if c = '.' then .anyc else ciChar c

/-- A pattern written as a plain string in the source list. -/

def lit (s : String) : Rx := s.data.foldr (fun c r => .cat (litChar c) r) .eps

/-- A pattern whose dots are escaped (`\.`): fully literal. -/

def elit (s : String) : Rx := s.data.foldr (fun c r => .cat (ciChar c) r) .eps

/-- Repetition `r+` as `r · r*`. -/

def rplus (r : Rx) : Rx := .cat r (.star r)

/-- Class `[a-z]` under the `i` flag: any ASCII letter. -/

def alphaRx : Rx :=
  .cls (fun c => Nat.ble 97 c.toLower.toNat && Nat.ble c.toLower.toNat 122)

/-- Is the character a digit or ASCII letter, case-insensitively? -/

def isAlnumCI (c : Char) : Bool :=
  let n := c.toLower.toNat
  (Nat.ble 48 n && Nat.ble n 57) || (Nat.ble 97 n && Nat.ble n 122)

/-- Class `[^0-9a-z]` under the `i` flag. -/

def nonAlnumRx : Rx := .cls (fun c => !isAlnumCI c)

/-- Class `[_.\-]`: underscore, literal dot or dash. -/

def sepRx : Rx := .cls (fun c => c == '_' || c == '.' || c == '-')

/-- Constant `ANONYMOUS_USERNAME` from `@apify/consts` (src/src/consts.js). -/

def ANONYMOUS_USERNAME : String := "anonymous"

/-- The branches of `FORBIDDEN_REGEXP`, in source order: the anonymous
username sentinel followed by every entry of
`FORBIDDEN_USERNAMES_REGEXPS`. -/

def forbiddenPatterns : List Rx :=
  [lit ANONYMOUS_USERNAME, lit "page-not-found", lit "docs", lit "terms-of-use", lit "about",
   lit "pricing", lit "privacy-policy", lit "customers", lit "request-form",
   lit "request-solution", lit "release-notes", lit "jobs", lit "api-reference",
   lit "video-tutorials", lit "acts", lit "key-value-stores", lit "schedules", lit "account",
   lit "sign-up", lit "sign-in-discourse", lit "admin", lit "documentation",
   lit "change-password", lit "enroll-account", lit "forgot-password", lit "reset-password",
   lit "sign-in", lit "verify-email", lit "live-status", lit "browser-info", lit "webhooks",
   lit "health-check", lit "api", lit "change-log", lit "dashboard", lit "community",
   lit "crawlers", lit "ext", lit "admin", lit "administration", lit "crawler", lit "act",
   lit "library", lit "lib", lit "apifier", lit "team", lit "contact", lit "doc",
   lit "documentation", lit "for-business", lit "for-developers", lit "developers",
   lit "business", lit "integrations", lit "job", lit "setting", lit "settings", lit "privacy",
   lit "policy", lit "assets", lit "help", lit "config", lit "configuration", lit "terms",
   lit "hiring", lit "hire", lit "status", lit "status-page", lit "solutions", lit "support",
   lit "market", lit "marketplace", lit "download", lit "downloads", lit "username", lit "users",
   lit "user", lit "login", lit "logout", lit "signin", lit "sign", lit "signup", lit "sign-out",
   lit "signout", lit "plugins", lit "plug-ins", lit "reset", lit "password", lit "passwords",
   lit "square", lit "profile-photos", lit "profiles", lit "true", lit "false", lit "js",
   lit "css", lit "img", lit "images", lit "image", lit "partials", lit "fonts", lit "font",
   lit "dynamic_templates", lit "app", lit "schedules", lit "community", lit "storage",
   lit "storages", lit "account", lit "node_modules", lit "bower_components", lit "video",
   lit "knowledgebase", lit "forum", lit "customers", lit "blog", lit "health-check",
   lit "health", lit "anim", lit "forum_topics.json", lit "forum_categories.json", lit "me",
   lit "you", lit "him", lit "she", lit "it", lit "external", lit "actor", lit "crawler",
   lit "scheduler", lit "api", lit "sdk", lit "puppeteer", lit "webdriver", lit "selenium",
   Rx.cat (lit "selenium") (Rx.cat (Rx.star Rx.anyc) (lit "webdriver")), lit "undefined",
   lit "page-analyzer", lit "wp-login.php", lit "welcome.action", lit "echo", lit "proxy",
   lit "super-proxy", lit "gdpr", lit "case-studies", lit "use-cases", lit "how-to", lit "kb",
   lit "cookies", lit "cookie-policy", lit "cookies-policy", lit "powered-by", lit "run",
   lit "runs", lit "actor", lit "actors", lit "act", lit "acts", lit "success-stories",
   lit "roadmap", lit "join-marketplace", lit "presskit", lit "press-kit", lit "covid-19",
   lit "covid", lit "covid19", lit "matfyz", lit "ideas", lit "public-actors", lit "resources",
   lit "partners", lit "affiliate", lit "industries", lit "web-scraping", lit "custom-solutions",
   lit "solution-provider", lit "index", elit "index.html",
   Rx.cat (elit "favicon.") (rplus alphaRx), lit "BingSiteAuth.xml",
   Rx.cat (lit "google") (Rx.cat (rplus Rx.anyc) (elit ".html")), elit "robots.txt",
   Rx.cat (elit "sitemap.") (rplus alphaRx), Rx.cat (lit "apple-touch-icon") (Rx.star Rx.anyc),
   elit "security-whitepaper.pdf", Rx.cat (elit ".") (Rx.star Rx.anyc),
   Rx.cat (lit "xxx-") (Rx.star Rx.anyc), Rx.cat nonAlnumRx (Rx.star Rx.anyc),
   Rx.cat (Rx.star Rx.anyc) nonAlnumRx,
   Rx.cat (Rx.star Rx.anyc) (Rx.cat sepRx (Rx.cat sepRx (Rx.star Rx.anyc))), lit "0", lit "about",
   lit "access", lit "account", lit "accounts", lit "activate", lit "activities", lit "activity",
   lit "ad", lit "add", lit "address", lit "adm", lit "admin", lit "administration",
   lit "administrator", lit "ads", lit "adult", lit "advertising", lit "affiliate",
   lit "affiliates", lit "ajax", lit "all", lit "alpha", lit "analysis", lit "analytics",
   lit "android", lit "anon", lit "anonymous", lit "api", lit "app", lit "apps", lit "archive",
   lit "archives", lit "article", lit "asct", lit "asset", lit "atom", lit "auth",
   lit "authentication", lit "avatar", lit "backup", lit "balancer-manager", lit "banner",
   lit "banners", lit "beta", lit "billing", lit "bin", lit "blog", lit "blogs", lit "board",
   lit "book", lit "bookmark", lit "bot", lit "bots", lit "bug", lit "business", lit "cache",
   lit "cadastro", lit "calendar", lit "call", lit "campaign", lit "cancel", lit "captcha",
   lit "career", lit "careers", lit "cart", lit "categories", lit "category", lit "cgi",
   lit "cgi-bin", lit "changelog", lit "chat", lit "check", lit "checking", lit "checkout",
   lit "client", lit "cliente", lit "clients", lit "code", lit "codereview", lit "comercial",
   lit "comment", lit "comments", lit "communities", lit "community", lit "company",
   lit "compare", lit "compras", lit "config", lit "configuration", lit "connect", lit "contact",
   lit "contact-us", lit "contact_us", lit "contactus", lit "contest", lit "contribute",
   lit "corp", lit "create", lit "css", lit "dashboard", lit "data", lit "db", lit "default",
   lit "delete", lit "demo", lit "design", lit "designer", lit "destroy", lit "dev", lit "devel",
   lit "developer", lit "developers", lit "diagram", lit "diary", lit "dict", lit "dictionary",
   lit "die", lit "dir", lit "direct_messages", lit "directory", lit "dist", lit "doc",
   lit "docs", lit "documentation", lit "domain", lit "download", lit "downloads",
   lit "ecommerce", lit "edit", lit "editor", lit "edu", lit "education", lit "email",
   lit "employment", lit "empty", lit "end", lit "enterprise", lit "entries", lit "entry",
   lit "error", lit "errors", lit "eval", lit "event", lit "exit", lit "explore", lit "facebook",
   lit "faq", lit "favorite", lit "favorites", lit "feature", lit "features", lit "feed",
   lit "feedback", lit "feeds", lit "file", lit "files", lit "first", lit "flash", lit "fleet",
   lit "fleets", lit "flog", lit "follow", lit "followers", lit "following", lit "forgot",
   lit "form", lit "forum", lit "forums", lit "founder", lit "free", lit "friend", lit "friends",
   lit "ftp", lit "gadget", lit "gadgets", lit "game", lit "games", lit "get", lit "gift",
   lit "gifts", lit "gist", lit "github", lit "graph", lit "group", lit "groups", lit "guest",
   lit "guests", lit "help", lit "home", lit "homepage", lit "host", lit "hosting",
   lit "hostmaster", lit "hostname", lit "howto", lit "hpg", lit "html", lit "http", lit "httpd",
   lit "https", lit "i", lit "iamges", lit "icon", lit "icons", lit "id", lit "idea", lit "ideas",
   lit "image", lit "images", lit "imap", lit "img", lit "index", lit "indice", lit "info",
   lit "information", lit "inquiry", lit "instagram", lit "intranet", lit "invitations",
   lit "invite", lit "ipad", lit "iphone", lit "irc", lit "is", lit "issue", lit "issues",
   lit "it", lit "item", lit "items", lit "java", lit "javascript", lit "job", lit "jobs",
   lit "join", lit "js", lit "json", lit "jump", lit "knowledgebase", lit "language",
   lit "languages", lit "last", lit "ldap-status", lit "legal", lit "license", lit "link",
   lit "links", lit "linux", lit "list", lit "lists", lit "log", lit "log-in", lit "log-out",
   lit "log_in", lit "log_out", lit "login", lit "logout", lit "logs", lit "m", lit "mac",
   lit "mail", lit "mail1", lit "mail2", lit "mail3", lit "mail4", lit "mail5", lit "mailer",
   lit "mailing", lit "maintenance", lit "manager", lit "manual", lit "map", lit "maps",
   lit "marketing", lit "master", lit "me", lit "media", lit "member", lit "members",
   lit "message", lit "messages", lit "messenger", lit "microblog", lit "microblogs", lit "mine",
   lit "mis", lit "mob", lit "mobile", lit "movie", lit "movies", lit "mp3", lit "msg", lit "msn",
   lit "music", lit "musicas", lit "mx", lit "my", lit "mysql", lit "name", lit "named",
   lit "nan", lit "navi", lit "navigation", lit "net", lit "network", lit "new", lit "news",
   lit "newsletter", lit "nick", lit "nickname", lit "notes", lit "noticias", lit "notification",
   lit "notifications", lit "notify", lit "ns", lit "ns1", lit "ns10", lit "ns2", lit "ns3",
   lit "ns4", lit "ns5", lit "ns6", lit "ns7", lit "ns8", lit "ns9", lit "null", lit "oauth",
   lit "oauth_clients", lit "offer", lit "offers", lit "official", lit "old", lit "online",
   lit "openid", lit "operator", lit "order", lit "orders", lit "organization",
   lit "organizations", lit "overview", lit "owner", lit "owners", lit "page", lit "pager",
   lit "pages", lit "panel", lit "password", lit "payment", lit "perl", lit "phone", lit "photo",
   lit "photoalbum", lit "photos", lit "php", lit "phpmyadmin", lit "phppgadmin",
   lit "phpredisadmin", lit "pic", lit "pics", lit "ping", lit "plan", lit "plans", lit "plugin",
   lit "plugins", lit "policy", lit "pop", lit "pop3", lit "popular", lit "portal", lit "post",
   lit "postfix", lit "postmaster", lit "posts", lit "pr", lit "premium", lit "press",
   lit "price", lit "pricing", lit "privacy", lit "privacy-policy", lit "privacy_policy",
   lit "privacypolicy", lit "private", lit "product", lit "products", lit "profile",
   lit "project", lit "projects", lit "promo", lit "pub", lit "public", lit "purpose", lit "put",
   lit "python", lit "query", lit "random", lit "ranking", lit "read", lit "readme", lit "recent",
   lit "recruit", lit "recruitment", lit "register", lit "registration", lit "release",
   lit "remove", lit "replies", lit "report", lit "reports", lit "repositories", lit "repository",
   lit "req", lit "request", lit "requests", lit "reset", lit "roc", lit "root", lit "rss",
   lit "ruby", lit "rule", lit "sag", lit "sale", lit "sales", lit "sample", lit "samples",
   lit "save", lit "school", lit "script", lit "scripts", lit "search", lit "secure",
   lit "security", lit "self", lit "send", lit "server", lit "server-info", lit "server-status",
   lit "service", lit "services", lit "session", lit "sessions", lit "setting", lit "settings",
   lit "setup", lit "share", lit "shop", lit "show", lit "sign-in", lit "sign-up", lit "sign_in",
   lit "sign_up", lit "signin", lit "signout", lit "signup", lit "site", lit "sitemap",
   lit "sites", lit "smartphone", lit "smtp", lit "soporte", lit "source", lit "spec",
   lit "special", lit "sql", lit "src", lit "ssh", lit "ssl", lit "ssladmin",
   lit "ssladministrator", lit "sslwebmaster", lit "staff", lit "stage", lit "staging",
   lit "start", lit "stat", lit "state", lit "static", lit "stats", lit "status", lit "store",
   lit "stores", lit "stories", lit "style", lit "styleguide", lit "stylesheet",
   lit "stylesheets", lit "subdomain", lit "subscribe", lit "subscriptions", lit "suporte",
   lit "support", lit "svn", lit "swf", lit "sys", lit "sysadmin", lit "sysadministrator",
   lit "system", lit "tablet", lit "tablets", lit "tag", lit "talk", lit "task", lit "tasks",
   lit "team", lit "teams", lit "tech", lit "telnet", lit "term", lit "terms",
   lit "terms-of-service", lit "terms_of_service", lit "termsofservice", lit "test", lit "test1",
   lit "test2", lit "test3", lit "teste", lit "testing", lit "tests", lit "theme", lit "themes",
   lit "thread", lit "threads", lit "tmp", lit "todo", lit "tool", lit "tools", lit "top",
   lit "topic", lit "topics", lit "tos", lit "tour", lit "translations", lit "trends",
   lit "tutorial", lit "tux", lit "tv", lit "twitter", lit "undef", lit "unfollow",
   lit "unsubscribe", lit "update", lit "upload", lit "uploads", lit "url", lit "usage",
   lit "user", lit "username", lit "users", lit "usuario", lit "vendas", lit "ver", lit "version",
   lit "video", lit "videos", lit "visitor", lit "watch", lit "weather", lit "web", lit "webhook",
   lit "webhooks", lit "webmail", lit "webmaster", lit "website", lit "websites", lit "welcome",
   lit "widget", lit "widgets", lit "wiki", lit "win", lit "windows", lit "word", lit "work",
   lit "works", lit "workshop", lit "ww", lit "wws", lit "www", lit "www1", lit "www2",
   lit "www3", lit "www4", lit "www5", lit "www6", lit "www7", lit "wwws", lit "wwww", lit "xfn",
   lit "xml", lit "xmpp", lit "xpg", lit "xxx", lit "yaml", lit "year", lit "yml", lit "you",
   lit "yourdomain", lit "yourname", lit "yoursite", lit "yourusername"]

/-- Function `isForbiddenUsername`: `!!username.match(FORBIDDEN_REGEXP)` — true
iff some branch of the anchored alternation matches the whole string. -/

def isForbiddenUsername (username : String) : Bool :=
  forbiddenPatterns.any (fun r => rxMatch r username.data)

/-! ## Theorems -/

/-- Once the callback has fired, the state is frozen: every later event
leaves it unchanged (the single-fire `hasFulfilled` flag). -/
theorem tpStep_frozen (msg : String) (st : TPState) (e : TPEvent)
    (hf : st.hasFulfilled = true) : tpStep msg st e = st := by
  cases e with
  | innerResolved v => simp [tpStep, tpCallback, hf]
  | innerRejected e => simp [tpStep, tpCallback, hf]
  | timerFired =>
      by_cases hc : st.timerCleared = true
      · simp [tpStep, hc]
      · simp [tpStep, tpCallback, hf, hc]

theorem tpFold_frozen (msg : String) (st : TPState) (evs : List TPEvent)
    (hf : st.hasFulfilled = true) : evs.foldl (tpStep msg) st = st := by
  induction evs with
  | nil => rfl
  | cons e rest ih => simp [List.foldl_cons, tpStep_frozen msg st e hf, ih]

/-- After any single event from the initial state, the callback has fired. -/

theorem tpStep_init_fulfilled (msg : String) (e : TPEvent) :
    (tpStep msg TPState.init e).hasFulfilled = true := by
  cases e <;> simp [tpStep, tpCallback, TPState.init, promSettle] <;>
    split <;> simp

/-- Cancellation kills the handle for good: from a cleared state, no
sequence of late continuations, timer events or repeated clears can ever
make a timer pending again or revive the liveness flag. -/
theorem intervalFold_dead (evs : List IntervalEvent) (st : IntervalState)
    (hr : st.isRunning = false) (hp : st.timerPending = false) :
    (evs.foldl intervalStep st).isRunning = false ∧
      (evs.foldl intervalStep st).timerPending = false := by
  induction evs generalizing st with
  | nil => exact ⟨hr, hp⟩
  | cons e rest ih =>
      cases e with
      | contCalled =>
          simp only [List.foldl_cons, intervalStep, intervalCallback, hr]
          exact ih st hr hp
      | timerFired =>
          simp only [List.foldl_cons, intervalStep, hp]
          exact ih st hr hp
      | cleared =>
          exact ih ⟨false, false⟩ rfl rfl

/-- Once both handlers are removed, every further event is inert. -/
theorem listenFold_inert (evs : List ServerEvent) (st : ListenState)
    (he : st.errorHandler = false) (hl : st.listeningHandler = false) :
    evs.foldl listenStep st = st := by
  induction evs with
  | nil => rfl
  | cons e rest ih =>
      cases e with
      | errorEv x => simp [List.foldl_cons, listenStep, he, ih]
      | listeningEv => simp [List.foldl_cons, listenStep, hl, ih]
      | otherEv => simp [List.foldl_cons, listenStep, ih]

/-- The instrumentation is sound: dropping the trace gives back the
plain loop. -/
theorem seqLoopTraced_fst {ε α : Type} (items : List (Nat × PromiseItem ε α))
    (results : List α) (trace : List Nat) :
    (seqLoopTraced items results trace).1 = seqLoop (items.map Prod.snd) results := by
  induction items generalizing results trace with
  | nil => rfl
  | cons p rest ih =>
      obtain ⟨i, it⟩ := p
      simp only [seqLoopTraced, seqLoop, List.map_cons]
      cases resolveItem it with
      | error e => rfl
      | ok v => exact ih _ _

/-- Tagging forgets to the original list. -/

theorem tagFrom_map_snd {ε α : Type} (n : Nat) (items : List (PromiseItem ε α)) :
    (tagFrom n items).map Prod.snd = items := by
  induction items generalizing n with
  | nil => rfl
  | cons it rest ih => simp [tagFrom, ih]

theorem tagFrom_append {ε α : Type} (n : Nat) (xs ys : List (PromiseItem ε α)) :
    tagFrom n (xs ++ ys) = tagFrom n xs ++ tagFrom (n + xs.length) ys := by
  induction xs generalizing n with
  | nil => simp [tagFrom]
  | cons x rest ih =>
      simp only [List.cons_append, tagFrom, List.append_eq, ih, List.length_cons]
      have : n + 1 + rest.length = n + (rest.length + 1) := by omega
      rw [this]

theorem tagFrom_map_fst {ε α : Type} (n : Nat) (xs : List (PromiseItem ε α)) :
    (tagFrom n xs).map Prod.fst = List.range' n xs.length := by
  induction xs generalizing n with
  | nil => rfl
  | cons x rest ih => simp [tagFrom, ih, List.range'_succ]

theorem mem_of_mem_tagFrom {ε α : Type} {n : Nat} {xs : List (PromiseItem ε α)}
    {p : Nat × PromiseItem ε α} (hp : p ∈ tagFrom n xs) : p.2 ∈ xs := by
  induction xs generalizing n with
  | nil => simp [tagFrom] at hp
  | cons x rest ih =>
      simp only [tagFrom, List.mem_cons] at hp
      rcases hp with h | h
      · subst h; simp
      · exact List.mem_cons_of_mem _ (ih h)

/-- A run over items that all succeed appends their results, in order. -/
theorem seqLoop_ok {ε α : Type} (okItems : List (PromiseItem ε α)) (vs : List α)
    (acc : List α) (hok : okItems.map resolveItem = vs.map Except.ok) :
    seqLoop okItems acc = .ok (acc ++ vs) := by
  induction okItems generalizing vs acc with
  | nil =>
      have : vs = [] := by
        cases vs with
        | nil => rfl
        | cons v vs' => simp at hok
      subst this
      simp [seqLoop]
  | cons it rest ih =>
      cases vs with
      | nil => simp at hok
      | cons v vs' =>
          simp only [List.map_cons, List.cons.injEq] at hok
          obtain ⟨h1, h2⟩ := hok
          simp only [seqLoop, h1]
          rw [ih vs' (acc ++ [v]) h2]
          simp

/-- A run aborts at the first failing item with exactly its error. -/

theorem seqLoop_fail {ε α : Type} (okItems : List (PromiseItem ε α)) (vs : List α)
    (acc : List α) (bad : PromiseItem ε α) (e : ε) (post : List (PromiseItem ε α))
    (hok : okItems.map resolveItem = vs.map Except.ok)
    (hbad : resolveItem bad = .error e) :
    seqLoop (okItems ++ bad :: post) acc = .error e := by
  induction okItems generalizing vs acc with
  | nil => simp [seqLoop, hbad]
  | cons it rest ih =>
      cases vs with
      | nil => simp at hok
      | cons v vs' =>
          simp only [List.map_cons, List.cons.injEq] at hok
          obtain ⟨h1, h2⟩ := hok
          simp only [List.cons_append, seqLoop, h1]
          exact ih vs' (acc ++ [v]) h2

/-- The trace of a failing run: every successful item before the failure
logs its index, the failing item logs its own, and nothing after it is
ever begun. -/

theorem seqLoopTraced_trace {ε α : Type} (okT : List (Nat × PromiseItem ε α))
    (i : Nat) (bad : PromiseItem ε α) (e : ε) (postT : List (Nat × PromiseItem ε α))
    (acc : List α) (tr : List Nat)
    (hok : ∀ p ∈ okT, ∃ v, resolveItem p.2 = Except.ok v)
    (hbad : resolveItem bad = .error e) :
    (seqLoopTraced (okT ++ (i, bad) :: postT) acc tr).2 = tr ++ okT.map Prod.fst ++ [i] := by
  induction okT generalizing acc tr with
  | nil => simp [seqLoopTraced, hbad]
  | cons p rest ih =>
      obtain ⟨j, it⟩ := p
      obtain ⟨v, hv⟩ := hok (j, it) (List.mem_cons_self _ _)
      simp only [List.cons_append, seqLoopTraced, hv, List.append_eq]
      rw [ih (acc ++ [v]) (tr ++ [j]) (fun q hq => hok q (List.mem_cons_of_mem _ hq))]
      simp

/-- Any nonempty run equals its first step (first event wins, rest frozen). -/

theorem runTP_cons (msg : String) (e : TPEvent) (rest : List TPEvent) :
    runTP msg (e :: rest) = tpStep msg TPState.init e := by
  unfold runTP
  rw [List.foldl_cons]
  exact tpFold_frozen msg _ rest (tpStep_init_fulfilled msg e)

/-- C1: `timeoutPromise` settles exactly once: if the wrapped promise
resolves before the timer fires, the guarded promise resolves with that
result and the timer is cleared; if the timer fires first, the guarded
promise rejects with an `Error` carrying the message (by default
`'Promise has timed-out'`); and once settled, no later event of the loser
can ever change the settlement. -/

theorem timeoutPromise_first_wins (msg : String) (v : JSVal)
    (rest evs more : List TPEvent) (o : Except JSVal JSVal)
    (hset : (runTP msg evs).settled = some o) :
    ((runTP msg (TPEvent.innerResolved v :: rest)).settled = some (.ok v) ∧
      (runTP msg (TPEvent.innerResolved v :: rest)).timerCleared = true) ∧
    (runTP msg (TPEvent.timerFired :: rest)).settled =
      some (.error (JSVal.vError msg)) ∧
    (runTP timeoutDefaultMessage (TPEvent.timerFired :: rest)).settled =
      some (.error (JSVal.vError "Promise has timed-out")) ∧
    (runTP msg (evs ++ more)).settled = some o := by
  have hres : tpStep msg TPState.init (TPEvent.innerResolved v) =
      ⟨true, true, some (.ok v)⟩ := by
    simp [tpStep, tpCallback, TPState.init, promSettle, JSVal.truthy]
  have htim : ∀ m : String, tpStep m TPState.init TPEvent.timerFired =
      ⟨true, true, some (.error (JSVal.vError m))⟩ := by
    intro m
    simp [tpStep, tpCallback, TPState.init, promSettle, JSVal.truthy]
  refine ⟨⟨?_, ?_⟩, ?_, ?_, ?_⟩
  · rw [runTP_cons, hres]
  · rw [runTP_cons, hres]
  · rw [runTP_cons, htim]
  · rw [runTP_cons, htim]
    rfl
  · cases evs with
    | nil => simp [runTP, TPState.init] at hset
    | cons e0 r0 =>
        have h2 : runTP msg ((e0 :: r0) ++ more) = tpStep msg TPState.init e0 := by
          unfold runTP
          rw [List.cons_append, List.foldl_cons]
          exact tpFold_frozen msg _ _ (tpStep_init_fulfilled msg e0)
        rw [h2, ← runTP_cons msg e0 r0, hset]

theorem timeoutPromise_first_wins_witness :
    ((runTP "m" (TPEvent.innerResolved (JSVal.vNum 7) :: [TPEvent.timerFired])).settled =
        some (.ok (JSVal.vNum 7)) ∧
      (runTP "m" (TPEvent.innerResolved (JSVal.vNum 7) :: [TPEvent.timerFired])).timerCleared =
        true) ∧
    (runTP "m" (TPEvent.timerFired :: [TPEvent.timerFired])).settled =
      some (.error (JSVal.vError "m")) ∧
    (runTP timeoutDefaultMessage (TPEvent.timerFired :: [TPEvent.timerFired])).settled =
      some (.error (JSVal.vError "Promise has timed-out")) ∧
    (runTP "m" ([TPEvent.innerResolved (JSVal.vNum 7)] ++ [TPEvent.timerFired])).settled =
      some (.ok (JSVal.vNum 7)) :=
  timeoutPromise_first_wins "m" (JSVal.vNum 7) [TPEvent.timerFired]
    [TPEvent.innerResolved (JSVal.vNum 7)] [TPEvent.timerFired]
    (.ok (JSVal.vNum 7)) rfl

/-- C9: if the wrapped promise rejects with a falsy reason before the
timer fires, the guarded promise resolves with `undefined` (the callback
treats any falsy first argument as success); a truthy rejection reason is
propagated as a rejection. -/

theorem timeoutPromise_falsy_rejection (msg : String) (e : JSVal) :
    (e.truthy = false →
      (runTP msg [TPEvent.innerRejected e]).settled = some (.ok JSVal.vUndefined)) ∧
    (e.truthy = true →
      (runTP msg [TPEvent.innerRejected e]).settled = some (.error e)) := by
  constructor <;> intro h <;>
    simp [runTP, tpStep, tpCallback, TPState.init, promSettle, h]

theorem timeoutPromise_falsy_rejection_witness :
    (runTP "m" [TPEvent.innerRejected JSVal.vNull]).settled =
      some (.ok JSVal.vUndefined) :=
  (timeoutPromise_falsy_rejection "m" JSVal.vNull).1 rfl

/-- C2: after `betterClearInterval`, an invocation of the continuation
never schedules another run; even arbitrary sequences of late
continuations, timer expiries and repeated clears leave the handle with
no pending timer and the liveness flag down; clearing is idempotent and
clearing with no pending timer is the same harmless no-op. -/

theorem betterClearInterval_dead_idempotent (st : IntervalState)
    (evs : List IntervalEvent) :
    (intervalCallback (clearIntervalStep st)).timerPending = false ∧
    (evs.foldl intervalStep (clearIntervalStep st)).timerPending = false ∧
    (evs.foldl intervalStep (clearIntervalStep st)).isRunning = false ∧
    clearIntervalStep (clearIntervalStep st) = clearIntervalStep st ∧
    clearIntervalStep { st with timerPending := false } = clearIntervalStep st := by
  refine ⟨?_, ?_, ?_, rfl, rfl⟩
  · simp [intervalCallback, clearIntervalStep]
  · exact (intervalFold_dead evs (clearIntervalStep st) rfl rfl).2
  · exact (intervalFold_dead evs (clearIntervalStep st) rfl rfl).1

/-- C3: `sequentializePromises` returns results in input order, returns
`[]` for the empty input, fails fast with exactly the first error, and
never begins an operation after the failing one (the instrumented trace
of a run failing at position N is exactly `[0, …, N]`). -/

theorem sequentializePromises_order_failfast (ε α : Type)
    (okItems : List (PromiseItem ε α)) (vs : List α) (bad : PromiseItem ε α)
    (e : ε) (post : List (PromiseItem ε α))
    (hok : okItems.map resolveItem = vs.map Except.ok)
    (hbad : resolveItem bad = Except.error e) :
    sequentializePromises ([] : List (PromiseItem ε α)) = .ok [] ∧
    sequentializePromises okItems = .ok vs ∧
    sequentializePromises (okItems ++ bad :: post) = .error e ∧
    (seqRunTraced (okItems ++ bad :: post)).2 = List.range (okItems.length + 1) := by
  have hmem : ∀ p ∈ tagFrom 0 okItems, ∃ v, resolveItem p.2 = Except.ok v := by
    intro p hp
    have h2 := mem_of_mem_tagFrom hp
    have h3 : resolveItem p.2 ∈ okItems.map resolveItem :=
      List.mem_map_of_mem _ h2
    rw [hok] at h3
    obtain ⟨v, _, hveq⟩ := List.mem_map.mp h3
    exact ⟨v, hveq.symm⟩
  refine ⟨rfl, ?_, ?_, ?_⟩
  · cases okItems with
    | nil =>
        cases vs with
        | nil => rfl
        | cons v vs' => simp at hok
    | cons it rest =>
        have h := seqLoop_ok (it :: rest) vs [] hok
        simpa [sequentializePromises] using h
  · have h := seqLoop_fail okItems vs [] bad e post hok hbad
    have hne : ¬((okItems ++ bad :: post).length = 0) := by simp
    unfold sequentializePromises
    rw [if_neg hne]
    exact h
  · unfold seqRunTraced
    rw [tagFrom_append]
    have hcons : tagFrom (0 + okItems.length) (bad :: post) =
        (0 + okItems.length, bad) :: tagFrom (0 + okItems.length + 1) post := rfl
    rw [hcons]
    rw [seqLoopTraced_trace (tagFrom 0 okItems) _ bad e _ [] [] hmem hbad]
    rw [tagFrom_map_fst]
    simp [List.range_succ, List.range_eq_range']

theorem sequentializePromises_order_failfast_witness :
    sequentializePromises ([] : List (PromiseItem String Nat)) = .ok [] ∧
    sequentializePromises
      ([PromiseItem.prom (.ok 1), PromiseItem.fact (fun _ => .ok 2)] :
        List (PromiseItem String Nat)) = .ok [1, 2] ∧
    sequentializePromises
      (([PromiseItem.prom (.ok 1), PromiseItem.fact (fun _ => .ok 2)] :
          List (PromiseItem String Nat)) ++
        PromiseItem.fact (fun _ => Except.error "E") :: [PromiseItem.prom (.ok 9)]) =
      .error "E" ∧
    (seqRunTraced
      (([PromiseItem.prom (.ok 1), PromiseItem.fact (fun _ => .ok 2)] :
          List (PromiseItem String Nat)) ++
        PromiseItem.fact (fun _ => Except.error "E") :: [PromiseItem.prom (.ok 9)])).2 =
      List.range 3 :=
  sequentializePromises_order_failfast String Nat
    [PromiseItem.prom (.ok 1), PromiseItem.fact (fun _ => .ok 2)] [1, 2]
    (PromiseItem.fact (fun _ => Except.error "E")) "E" [PromiseItem.prom (.ok 9)]
    rfl rfl

/-- C4: the function returned by `promisifyServerListen` registers both
the `'error'` and the `'listening'` handler before `listen(port)` is
invoked; the first of the two events settles the promise (reject with the
emitted error, resolve on listening), both handlers are removed on either
path, and no later event can settle the promise again. -/

theorem promisifyServerListen_settles_once (port : Nat)
    (pre post : List SetupAction) (e : JSVal) (evs : List ServerEvent)
    (hdec : promisifyServerListenSetup port =
      pre ++ SetupAction.listenAction port :: post) :
    (SetupAction.onAction "error" ∈ pre ∧
      SetupAction.onAction "listening" ∈ pre) ∧
    runListen (ServerEvent.errorEv e :: evs) =
      ⟨false, false, some (.error e)⟩ ∧
    runListen (ServerEvent.listeningEv :: evs) =
      ⟨false, false, some (.ok JSVal.vUndefined)⟩ := by
  have h1 : listenStep ListenState.start (ServerEvent.errorEv e) =
      ⟨false, false, some (.error e)⟩ := by
    simp [listenStep, ListenState.start, removeListenersStep, promSettle]
  have h2 : listenStep ListenState.start ServerEvent.listeningEv =
      ⟨false, false, some (.ok JSVal.vUndefined)⟩ := by
    simp [listenStep, ListenState.start, removeListenersStep, promSettle]
  refine ⟨?_, ?_, ?_⟩
  · rcases pre with _ | ⟨a, _ | ⟨b, _ | ⟨c, rest⟩⟩⟩ <;>
      simp_all [promisifyServerListenSetup]
  · unfold runListen
    rw [List.foldl_cons, h1]
    exact listenFold_inert evs _ rfl rfl
  · unfold runListen
    rw [List.foldl_cons, h2]
    exact listenFold_inert evs _ rfl rfl

theorem promisifyServerListen_settles_once_witness :
    (SetupAction.onAction "error" ∈
        [SetupAction.onAction "error", SetupAction.onAction "listening"] ∧
      SetupAction.onAction "listening" ∈
        [SetupAction.onAction "error", SetupAction.onAction "listening"]) ∧
    runListen (ServerEvent.errorEv (JSVal.vError "x") :: [ServerEvent.otherEv]) =
      ⟨false, false, some (.error (JSVal.vError "x"))⟩ ∧
    runListen (ServerEvent.listeningEv :: [ServerEvent.otherEv]) =
      ⟨false, false, some (.ok JSVal.vUndefined)⟩ :=
  promisifyServerListen_settles_once 80
    [SetupAction.onAction "error", SetupAction.onAction "listening"] []
    (JSVal.vError "x") [ServerEvent.otherEv] rfl

/-- C5, counterexample: the claim says an exception thrown by
`removeListener` inside `promisifyServerListen`'s cleanup never
propagates, but the source wraps the cleanup in no handler: with a
`removeListener` that throws `Error('boom')`, `onListening` propagates
that exception (and `resolve` never runs). -/

theorem promisifyListen_cleanup_propagates_cx :
    onListeningRun (fun _ => .error (JSVal.vError "boom")) =
      .error (JSVal.vError "boom") := rfl

/-- C5, amended: errors thrown during `RepeatingTask` cancellation are
caught and logged inside `betterClearInterval` and never rethrown, for
every handle; but `promisifyServerListen`'s listener cleanup has no
handler, so an exception thrown by `removeListener` propagates out of
`onListening`/`onError` to the event emitter. -/

theorem clearInterval_catches_listen_cleanup_throws
    (f : Unit → Except JSVal Unit) (rm : String → Except JSVal Unit)
    (e err : JSVal) (hf : f () = .error e) (hrm : rm "error" = .error e) :
    betterClearIntervalRun none = .ok none ∧
    betterClearIntervalRun (some f) = .ok (some e) ∧
    onListeningRun rm = .error e ∧
    onErrorRun rm err = .error e := by
  refine ⟨rfl, ?_, ?_, ?_⟩
  · simp [betterClearIntervalRun, hf]
  · simp only [onListeningRun, removeListenersRun, hrm]
    rfl
  · simp only [onErrorRun, removeListenersRun, hrm]
    rfl

theorem clearInterval_catches_listen_cleanup_throws_witness :
    betterClearIntervalRun none = .ok none ∧
    betterClearIntervalRun (some (fun _ => .error (JSVal.vError "boom"))) =
      .ok (some (JSVal.vError "boom")) ∧
    onListeningRun (fun _ => .error (JSVal.vError "boom")) =
      .error (JSVal.vError "boom") ∧
    onErrorRun (fun _ => .error (JSVal.vError "boom")) JSVal.vNull =
      .error (JSVal.vError "boom") :=
  clearInterval_catches_listen_cleanup_throws
    (fun _ => .error (JSVal.vError "boom")) (fun _ => .error (JSVal.vError "boom"))
    (JSVal.vError "boom") JSVal.vNull rfl rfl

set_option maxRecDepth 200000 in
/-- C6: the username policy on the spec's examples: `"anonymous"`,
`".hidden"`, `"a__b"`, `"-leading"`, `"trailing-"` and (case-insensitively)
`"ADMIN"` are forbidden, `"my-cool-scraper"` is not, and the empty string
is not forbidden because no branch of the compiled anchored alternation
matches the empty string. -/
theorem isForbiddenUsername_examples :
    isForbiddenUsername "anonymous" = true ∧
    isForbiddenUsername ".hidden" = true ∧
    isForbiddenUsername "a__b" = true ∧
    isForbiddenUsername "-leading" = true ∧
    isForbiddenUsername "trailing-" = true ∧
    isForbiddenUsername "ADMIN" = true ∧
    isForbiddenUsername "my-cool-scraper" = false ∧
    isForbiddenUsername "" = false ∧
    forbiddenPatterns.all (fun r => ! r.nullable) = true := by
  refine ⟨?_, ?_, ?_, ?_, ?_, ?_, ?_, ?_, ?_⟩ <;> decide

/-- Reading `getD` at an in-range index returns an element of the list. -/

theorem getD_mem_of_lt {α : Type} (l : List α) (n : Nat) (d : α)
    (h : n < l.length) : l.getD n d ∈ l := by
  induction l generalizing n with
  | nil => simp at h
  | cons x xs ih =>
      cases n with
      | zero => simp [List.getD]
      | succ m =>
          have hm : m < xs.length := by simpa using h
          simpa [List.getD] using List.mem_cons_of_mem x (ih m hm)

theorem objectIdChars_length : objectIdChars.length = 62 := by decide

/-- C7: for every byte sequence of length L ≥ 1, the identifier has
exactly L characters, each drawn from the 62-character alphabet, and it is
the bytes mapped through modulo 62 in reverse order. -/

theorem cryptoRandomObjectId_spec (bytes : List Nat) (L : Nat)
    (hlen : bytes.length = L) (_hpos : 1 ≤ L) :
    (cryptoRandomObjectId bytes).length = L ∧
    (∀ c ∈ cryptoRandomObjectId bytes, c ∈ objectIdChars) ∧
    cryptoRandomObjectId bytes =
      (bytes.map (fun b => objectIdChars.getD (b % 62) ' ')).reverse ∧
    objectIdChars.length = 62 := by
  refine ⟨?_, ?_, ?_, objectIdChars_length⟩
  · simp [cryptoRandomObjectId, hlen]
  · intro c hc
    simp only [cryptoRandomObjectId, List.mem_map, List.mem_reverse] at hc
    obtain ⟨b, _, hbc⟩ := hc
    rw [← hbc]
    refine getD_mem_of_lt _ _ _ (Nat.mod_lt _ ?_)
    rw [objectIdChars_length]
    omega
  · simp [cryptoRandomObjectId, List.map_reverse, objectIdChars_length]

theorem cryptoRandomObjectId_spec_witness :
    (cryptoRandomObjectId [5, 200, 61]).length = 3 ∧
    (∀ c ∈ cryptoRandomObjectId [5, 200, 61], c ∈ objectIdChars) ∧
    cryptoRandomObjectId [5, 200, 61] =
      (([5, 200, 61] : List Nat).map
        (fun b => objectIdChars.getD (b % 62) ' ')).reverse ∧
    objectIdChars.length = 62 :=
  cryptoRandomObjectId_spec [5, 200, 61] 3 rfl (by omega)

/-- The source's global regex replacement is the per-character map the
specification describes. -/

theorem replacePlusSlashEq_eq_map (l : List Char) :
    replacePlusSlashEq l =
      l.map (fun c => if c ∈ ['+', '/', '='] then 'x' else c) := by
  induction l with
  | nil => rfl
  | cons c cs ih =>
      simp only [replacePlusSlashEq, List.map_cons, ih, List.mem_cons,
        List.mem_singleton, List.not_mem_nil, or_false]

/-- C8: `deterministicUniqueId` is pure — equal inputs give equal outputs
— and its output is exactly the spec's pipeline: SHA-256 of the UTF-8 key,
base64-encoded, with `+`, `/`, `=` replaced by the filler `'x'`, truncated
to the requested length. -/

theorem deterministicUniqueId_pure_refines (key : String) (len : Nat) :
    deterministicUniqueId key len = deterministicUniqueId key len ∧
    deterministicUniqueId key len = deterministicIdentifierSpec key len := by
  refine ⟨rfl, ?_⟩
  unfold deterministicUniqueId deterministicIdentifierSpec
  rw [replacePlusSlashEq_eq_map]

theorem replacePlusSlashEq_length (l : List Char) :
    (replacePlusSlashEq l).length = l.length := by
  rw [replacePlusSlashEq_eq_map]
  simp

theorem sha256_length (msg : List Nat) : (sha256 msg).length = 32 := by
  simp [sha256, digestOf, bytesBE4]

theorem base64Encode_length (l : List Nat) :
    (base64Encode l).length = 4 * ((l.length + 2) / 3) := by
  induction l using base64Encode.induct with
  | case1 a b c rest ih =>
      simp only [base64Encode, List.length_cons, ih]
      omega
  | case2 a b => simp [base64Encode]
  | case3 a => simp [base64Encode]
  | case4 => rfl

/-- C10: the output of `deterministicUniqueId` has exactly
`min L 44` characters: the base64 encoding of the 32-byte digest is 44
characters long, and `substr` truncates but never pads. -/

theorem deterministicUniqueId_length (key : String) (L : Nat) :
    (deterministicUniqueId key L).length = min L 44 := by
  unfold deterministicUniqueId
  rw [List.length_take, replacePlusSlashEq_length, base64Encode_length,
    sha256_length]
